import Mathlib

/-!
Verification of the Game-of-Life display driver (`game_of_life.py`).

The script keeps a boolean grid of the display's dimensions, advances it one
Conway generation per frame using rolled-sum neighbor counting on a torus,
reseeds when the candidate grid is empty or equals the grid from two
generations prior, renders live cells as white pixels, pushes the frame,
sleeps a fixed frame delay, and clears the display once on shutdown.

The embedding below translates each of those pieces into Lean definitions and
proves or refutes the specification's claims about them.
-/

/-- A grid of `H` rows and `W` columns of cells; `true` is a live cell.
Mirrors the `H × W` boolean numpy array `grid`. -/
abbrev Grid (H W : ℕ) := Fin H → Fin W → Bool

/-- Toroidal index shift: the row/column index reached from `i` by moving `d`
(wrapping modulo the axis length), exactly the index arithmetic of
`np.roll` (`np.roll(a, s)[i] = a[(i - s) % n]`). -/
def wrapIdx {n : ℕ} (i : Fin n) (d : ℤ) : Fin n :=
  ⟨(((i : ℤ) + d) % (n : ℤ)).toNat, by
    have hn : 0 < (n : ℤ) := by exact_mod_cast i.pos
    have h1 : 0 ≤ ((i : ℤ) + d) % (n : ℤ) := Int.emod_nonneg _ (by omega)
    have h2 : ((i : ℤ) + d) % (n : ℤ) < (n : ℤ) := Int.emod_lt_of_pos _ hn
    omega⟩

/-- The eight `(dy, dx)` offsets of the source's generator
`for dy in (-1,0,1) for dx in (-1,0,1) if not (dx == 0 and dy == 0)`. -/
def offsets : List (ℤ × ℤ) :=
  [(-1, -1), (-1, 0), (-1, 1), (0, -1), (0, 1), (1, -1), (1, 0), (1, 1)]

/-- Rolled-sum neighbor count at cell `(r, c)`:
`sum(np.roll(np.roll(grid, dy, 0), dx, 1) for (dy, dx) in offsets)` evaluated
at `(r, c)`; each rolled array contributes `grid[(r - dy) % H][(c - dx) % W]`. -/
def neighbors {H W : ℕ} (g : Grid H W) (r : Fin H) (c : Fin W) : ℕ :=
  (offsets.map fun d => (g (wrapIdx r (-d.1)) (wrapIdx c (-d.2))).toNat).sum

/-- One Life generation:
`new_grid = (neighbors == 3) | (grid & (neighbors == 2))`. -/
def step {H W : ℕ} (g : Grid H W) : Grid H W :=
  fun r c => (neighbors g r c == 3) || (g r c && (neighbors g r c == 2))

/-- The list of the eight toroidally-wrapped positions adjacent to `(r, c)`,
offset by `(dy, dx)` in the forward direction (`(r + dy) % H`, `(c + dx) % W`);
positions may repeat when an axis is shorter than 3. -/
def adjList {H W : ℕ} (r : Fin H) (c : Fin W) : List (Fin H × Fin W) :=
  offsets.map fun d => (wrapIdx r d.1, wrapIdx c d.2)

/-- Number of live cells over the eight wrapped adjacent offset positions,
counted with multiplicity (one count per offset). -/
def specNeighbors {H W : ℕ} (g : Grid H W) (r : Fin H) (c : Fin W) : ℕ :=
  ((adjList r c).map fun q => (g q.1 q.2).toNat).sum

/-- The set of distinct toroidally-adjacent cells of `(r, c)`. -/
def adjCells {H W : ℕ} (r : Fin H) (c : Fin W) : Finset (Fin H × Fin W) :=
  (adjList r c).toFinset

/-- Number of live cells among the distinct toroidally-adjacent cells. -/
def trueNeighbors {H W : ℕ} (g : Grid H W) (r : Fin H) (c : Fin W) : ℕ :=
  (adjCells r c |>.filter fun q => g q.1 q.2).card

/-- The rolled-sum count equals the count over the eight forward offsets:
negating the offset list permutes it, so the two sums have the same terms. -/
theorem neighbors_eq_specNeighbors {H W : ℕ} (g : Grid H W) (r : Fin H) (c : Fin W) :
    neighbors g r c = specNeighbors g r c := by
  simp only [neighbors, specNeighbors, adjList, offsets, List.map_cons, List.map_nil,
    List.sum_cons, List.sum_nil]
  norm_num
  omega

/-- C1: for every grid `step` preserves the dimensions (by the type of `step`),
and a cell is alive in the next generation iff its count of live cells over
the eight toroidally-wrapped adjacent offsets is exactly 3, or the cell is
currently alive and that count is exactly 2; every other combination gives a
dead cell. -/
theorem c1_step_rule {H W : ℕ} (g : Grid H W) (r : Fin H) (c : Fin W) :
    step g r c = true ↔
      specNeighbors g r c = 3 ∨ (g r c = true ∧ specNeighbors g r c = 2) := by
  have h := neighbors_eq_specNeighbors g r c
  simp [step, h, Bool.or_eq_true, Bool.and_eq_true, beq_iff_eq]

/-- The 2×2 grid with every cell alive. -/
def allAlive2 : Grid 2 2 := fun _ _ => true

/-- The everywhere-dead grid. -/
def deadGrid (H W : ℕ) : Grid H W := fun _ _ => false

/-- C2 counterexample: on the all-alive 2×2 grid the computed neighbor count
at cell `(0,0)` is 8, not 3, and `step` does not return the same grid. -/
theorem c2_counterexample :
    neighbors allAlive2 0 0 = 8 ∧ step allAlive2 ≠ allAlive2 := by decide

/-- The simulation state carried across loop iterations: the current grid and
the grid of the previous generation (`grid` and `prev` in the source). -/
structure EngState (H W : ℕ) where
  grid : Grid H W
  prev : Grid H W
deriving DecidableEq

/-- `new_grid.any()`: whether any cell of the grid is alive. -/
def anyCell {H W : ℕ} (g : Grid H W) : Bool :=
  decide (∃ r c, g r c = true)

/-- One iteration of the engine's update, with the degeneracy policy:
compute the candidate `step s.grid`; if it is empty or equals the grid from
two generations prior (`s.prev`), replace it by the freshly drawn grid
`fresh` (modelling `rng.random((H, W)) < args.seed`).  Returns the next state
(`prev` becomes the old grid, `grid` the emitted one) and whether the reseed
branch was taken.  Mirrors lines 51-63 of the source. -/
def engineStep {H W : ℕ} (s : EngState H W) (fresh : Grid H W) :
    EngState H W × Bool :=
  if anyCell (step s.grid) = false ∨ step s.grid = s.prev then
    (⟨fresh, s.grid⟩, true)
  else
    (⟨step s.grid, s.grid⟩, false)

/-- Horizontal blinker on a 4×4 torus: live cells `(1,0) (1,1) (1,2)`. -/
def blinkerH : Grid 4 4 := fun r c => decide (r.val = 1 ∧ c.val ≤ 2)

/-- L-tromino on a 4×4 torus: live cells `(1,1) (1,2) (2,1)`; its next
generation is the 2×2 block `block4`. -/
def lTromino : Grid 4 4 :=
  fun r c => decide ((r.val = 1 ∧ (c.val = 1 ∨ c.val = 2)) ∨ (r.val = 2 ∧ c.val = 1))

/-- The 2×2 still-life block on a 4×4 torus: live cells rows 1-2, cols 1-2. -/
def block4 : Grid 4 4 :=
  fun r c => decide ((r.val = 1 ∨ r.val = 2) ∧ (c.val = 1 ∨ c.val = 2))

/-- C3 counterexample: the horizontal blinker is a non-empty oscillator of
period 2, yet the engine started on it keeps the first candidate and then
discards the second candidate and reseeds — the policy does not only detect
period-1 stagnation. -/
theorem c3_counterexample :
    step (step blinkerH) = blinkerH ∧ step blinkerH ≠ blinkerH ∧
      anyCell blinkerH = true ∧ anyCell (step blinkerH) = true ∧
      (engineStep ⟨blinkerH, blinkerH⟩ (deadGrid 4 4)).2 = false ∧
      (engineStep (engineStep ⟨blinkerH, blinkerH⟩ (deadGrid 4 4)).1
        (deadGrid 4 4)).2 = true := by
  decide

/-- C3 amended: the degeneracy check compares the candidate with the grid from
two generations prior, so it fires on period-2 oscillation as well: for every
grid `G` with `step (step G) = G`, `step G ≠ G` and `step G` non-empty, the
run started at `G` does not reseed on its first iteration but discards the
second candidate and reseeds. -/
theorem c3_period2_detected {H W : ℕ} (G R₁ R₂ : Grid H W)
    (h2 : step (step G) = G) (h1 : step G ≠ G) (hne : anyCell (step G) = true) :
    (engineStep ⟨G, G⟩ R₁).2 = false ∧
      (engineStep (engineStep ⟨G, G⟩ R₁).1 R₂).2 = true := by
  have hfirst : engineStep ⟨G, G⟩ R₁ = (⟨step G, G⟩, false) := by
    rw [engineStep]
    rw [if_neg]
    rintro (h | h)
    · rw [hne] at h; exact absurd h (by decide)
    · exact h1 h
  refine ⟨by rw [hfirst], ?_⟩
  rw [hfirst]
  rw [engineStep]
  rw [if_pos]
  right
  exact h2

/-- C3 witness: the amended statement instantiated on the 4×4 blinker. -/
theorem c3_period2_detected_witness :
    (engineStep ⟨blinkerH, blinkerH⟩ (deadGrid 4 4)).2 = false ∧
      (engineStep (engineStep ⟨blinkerH, blinkerH⟩ (deadGrid 4 4)).1
        (deadGrid 4 4)).2 = true :=
  c3_period2_detected blinkerH (deadGrid 4 4) (deadGrid 4 4)
    (by decide) (by decide) (by decide)

/-- C4 counterexample: the L-tromino steps to the still-life block; the engine
emits the block, and the immediately following iteration emits the block
again without reseeding — a still life is shown twice in a row. -/
theorem c4_counterexample :
    step block4 = block4 ∧ anyCell block4 = true ∧
      (engineStep ⟨lTromino, lTromino⟩ (deadGrid 4 4)).1.grid = block4 ∧
      (engineStep ⟨lTromino, lTromino⟩ (deadGrid 4 4)).2 = false ∧
      (engineStep (engineStep ⟨lTromino, lTromino⟩ (deadGrid 4 4)).1
        (deadGrid 4 4)).1.grid = block4 ∧
      (engineStep (engineStep ⟨lTromino, lTromino⟩ (deadGrid 4 4)).1
        (deadGrid 4 4)).2 = false := by
  decide

/-- C4 amended: a non-empty still life `G` on screen whose previous generation
`P` differs from `G` is emitted exactly once more: the iteration from
`(G, P)` emits `G` again without reseeding, and only the iteration after
that (from `(G, G)`) discards the candidate and emits the fresh grid. -/
theorem c4_still_life_emitted_twice {H W : ℕ} (G P R R' : Grid H W)
    (hstill : step G = G) (hne : anyCell G = true) (hP : G ≠ P) :
    (engineStep ⟨G, P⟩ R).2 = false ∧
      (engineStep ⟨G, P⟩ R).1.grid = G ∧ (engineStep ⟨G, P⟩ R).1.prev = G ∧
      (engineStep ⟨G, G⟩ R').2 = true ∧ (engineStep ⟨G, G⟩ R').1.grid = R' := by
  have hfirst : engineStep ⟨G, P⟩ R = (⟨G, G⟩, false) := by
    rw [engineStep]
    simp only [hstill]
    rw [if_neg]
    rintro (h | h)
    · rw [hne] at h; exact absurd h (by decide)
    · exact hP h
  have hsecond : engineStep ⟨G, G⟩ R' = (⟨R', G⟩, true) := by
    rw [engineStep]
    rw [if_pos (Or.inr hstill)]
  exact ⟨by rw [hfirst], by rw [hfirst], by rw [hfirst],
    by rw [hsecond], by rw [hsecond]⟩

/-- C4 witness: the amended statement instantiated on the 4×4 block with the
L-tromino as previous generation. -/
theorem c4_still_life_emitted_twice_witness :
    (engineStep ⟨block4, lTromino⟩ (deadGrid 4 4)).2 = false ∧
      (engineStep ⟨block4, lTromino⟩ (deadGrid 4 4)).1.grid = block4 ∧
      (engineStep ⟨block4, lTromino⟩ (deadGrid 4 4)).1.prev = block4 ∧
      (engineStep ⟨block4, block4⟩ (deadGrid 4 4)).2 = true ∧
      (engineStep ⟨block4, block4⟩ (deadGrid 4 4)).1.grid = deadGrid 4 4 :=
  c4_still_life_emitted_twice block4 lTromino (deadGrid 4 4) (deadGrid 4 4)
    (by decide) (by decide) (by decide)

/-- C9: whenever `step` sends the current grid to the empty grid, the engine
discards the empty candidate: the emitted grid is exactly the freshly drawn
grid `R` and the reseed branch is taken.  The policy is total — it returns a
state, never an error. -/
theorem c9_extinction_reseeds {H W : ℕ} (g p R : Grid H W)
    (h : step g = deadGrid H W) :
    engineStep ⟨g, p⟩ R = (⟨R, g⟩, true) := by
  rw [engineStep]
  rw [if_pos]
  left
  rw [h]
  simp [anyCell, deadGrid]

/-- A single live cell at the center of a 3×3 grid; its next generation is
empty. -/
def singleCell3 : Grid 3 3 := fun r c => decide (r.val = 1 ∧ c.val = 1)

/-- A 3×3 grid whose top row is alive, standing in for a fresh random draw. -/
def row0Grid3 : Grid 3 3 := fun r _ => decide (r.val = 0)

/-- C9 witness: the single live cell dies out and the engine emits the fresh
grid. -/
theorem c9_extinction_reseeds_witness :
    engineStep ⟨singleCell3, singleCell3⟩ row0Grid3 = (⟨row0Grid3, singleCell3⟩, true) :=
  c9_extinction_reseeds singleCell3 singleCell3 row0Grid3 (by decide)

/-- C2 amended: on the 2×2 all-alive grid the rolled-sum neighbor count is 8
at every cell (each of the three other cells is reached by several of the
eight offsets, and the cell itself by four), so `step` yields the all-dead
grid; the engine then discards that empty candidate and emits the fresh
reseed, rather than emitting the same all-alive grid. -/
theorem c2_allalive2_steps_to_dead :
    (∀ r c : Fin 2, neighbors allAlive2 r c = 8) ∧
      step allAlive2 = deadGrid 2 2 ∧
      (∀ R : Grid 2 2, engineStep ⟨allAlive2, allAlive2⟩ R = (⟨R, allAlive2⟩, true)) := by
  decide

/-- `frame[grid] = [255, 255, 255]` over `np.zeros((H, W, 3))`: the rendered
RGB pixel of a cell is white when the cell is alive, black otherwise. -/
def render {H W : ℕ} (g : Grid H W) : Fin H → Fin W → ℕ × ℕ × ℕ :=
  fun r c => if g r c then (255, 255, 255) else (0, 0, 0)

/-- C8: the rendered bitmap has the same `H × W` dimensions as the grid (by
the type of `render`), and its pixel at `(r, c)` is `(255,255,255)` iff the
cell is alive and `(0,0,0)` iff it is dead, for every grid of at least 1×1
(the indices `r : Fin H`, `c : Fin W` exist exactly when `H, W ≥ 1`). -/
theorem c8_render_pixels {H W : ℕ} (g : Grid H W) (r : Fin H) (c : Fin W) :
    (render g r c = (255, 255, 255) ↔ g r c = true) ∧
      (render g r c = (0, 0, 0) ↔ g r c = false) := by
  cases h : g r c <;> simp [render, h, Prod.ext_iff]

/-- `frame_delay = 1.0 / max(1, args.fps)`, computed once before the loop. -/
def frame_delay (fps : ℕ) : ℚ :=
  1 / ((max 1 fps : ℕ) : ℚ)

/-- Duration the loop body sleeps after pushing a frame, as a function of the
time the iteration has already taken: the source executes
`time.sleep(frame_delay)` unconditionally and measures no clock, so the
duration is the full `frame_delay` whatever the elapsed time was. -/
def loopSleep (fps : ℕ) (elapsed : ℚ) : ℚ :=
  frame_delay fps

/-- Modelled from the spec: the sleep the specification describes (absent
from the source) — sleep the remaining `FrameBudget - elapsed` when the
iteration finished early, otherwise do not sleep at all. -/
def schedSleepSpec (fps : ℕ) (elapsed : ℚ) : ℚ :=
  if elapsed < frame_delay fps then frame_delay fps - elapsed else 0

/-- C5 counterexample: at 30 fps, for an iteration whose elapsed time already
equals the frame budget, the spec's scheduler would not sleep, but the code
sleeps the full budget `1/30`. -/
theorem c5_counterexample :
    loopSleep 30 (frame_delay 30) = 1 / 30 ∧
      schedSleepSpec 30 (frame_delay 30) = 0 ∧
      loopSleep 30 (frame_delay 30) ≠ schedSleepSpec 30 (frame_delay 30) := by
  have h : frame_delay 30 = 1 / 30 := by
    have hm : (max 1 30 : ℕ) = 30 := rfl
    rw [frame_delay, hm]
    norm_num
  refine ⟨by rw [loopSleep, h], ?_, ?_⟩
  · rw [schedSleepSpec, if_neg (lt_irrefl _)]
  · rw [loopSleep, schedSleepSpec, if_neg (lt_irrefl _), h]
    norm_num

/-- C5 amended: the scheduler computes `FrameBudget = 1 / max(1, fps)` once at
startup, and after pushing each frame it sleeps exactly `FrameBudget`
(a positive duration), regardless of how long the iteration took; there is no
elapsed-time measurement and no skipped sleep. -/
theorem c5_sleep_is_constant (fps : ℕ) (elapsed : ℚ) :
    loopSleep fps elapsed = frame_delay fps ∧
      frame_delay fps = 1 / ((max 1 fps : ℕ) : ℚ) ∧
      0 < frame_delay fps := by
  refine ⟨rfl, rfl, ?_⟩
  rw [frame_delay]
  apply one_div_pos.mpr
  have h : 0 < (max 1 fps : ℕ) := lt_of_lt_of_le Nat.zero_lt_one (le_max_left 1 fps)
  exact_mod_cast h

/-- `rng.random((H, W)) < args.seed`: a cell is seeded alive iff its uniform
draw (a value in `[0,1)`) is below the configured density. -/
def seedGrid {H W : ℕ} (draws : Fin H → Fin W → ℚ) (density : ℚ) : Grid H W :=
  fun r c => decide (draws r c < density)

/-- Startup as the source performs it: `--seed` is parsed with no range
check of any kind and the program proceeds straight to seeding and the run
loop; a `none` result would model a rejected configuration, a branch the
program does not contain. -/
def startupGrid {H W : ℕ} (draws : Fin H → Fin W → ℚ) (density : ℚ) :
    Option (Grid H W) :=
  some (seedGrid draws density)

/-- C6 counterexample: the out-of-range density `2` is accepted at startup
(the run loop is entered) and every cell of the resulting seed is alive. -/
theorem c6_counterexample :
    startupGrid (H := 1) (W := 1) (fun _ _ => 1 / 2) 2 ≠ none ∧
      startupGrid (H := 1) (W := 1) (fun _ _ => 1 / 2) 2 = some (fun _ _ => true) := by
  constructor
  · rw [startupGrid]; exact Option.some_ne_none _
  · rw [startupGrid]
    congr 1
    funext r c
    simp [seedGrid]
    norm_num

/-- C6 amended: no seed-density validation exists: every configured density,
in range or not, is accepted and the program proceeds into the run loop; when
the per-cell draws lie in `[0,1)`, a density `≥ 1` seeds every cell alive and
a density `≤ 0` seeds every cell dead. -/
theorem c6_no_density_validation {H W : ℕ} (draws : Fin H → Fin W → ℚ)
    (density : ℚ) :
    (startupGrid draws density).isSome = true ∧
      ((∀ r c, 0 ≤ draws r c ∧ draws r c < 1) →
        (1 ≤ density → seedGrid draws density = fun _ _ => true) ∧
        (density ≤ 0 → seedGrid draws density = fun _ _ => false)) := by
  refine ⟨rfl, fun hd => ⟨fun h1 => ?_, fun h0 => ?_⟩⟩
  · funext r c
    simp only [seedGrid, decide_eq_true_eq]
    exact lt_of_lt_of_le (hd r c).2 h1
  · funext r c
    simp only [seedGrid, decide_eq_false_iff_not]
    exact not_lt.mpr (h0.trans (hd r c).1)

/-- C6 witness: the amended statement at density `2` with draws `1/2`. -/
theorem c6_no_density_validation_witness :
    (startupGrid (H := 1) (W := 1) (fun _ _ => 1 / 2) 2).isSome = true ∧
      seedGrid (H := 1) (W := 1) (fun _ _ => 1 / 2) 2 = fun _ _ => true :=
  ⟨(c6_no_density_validation (fun _ _ => 1 / 2) 2).1,
    ((c6_no_density_validation (H := 1) (W := 1) (fun _ _ => 1 / 2) 2).2
      (fun r c => ⟨by norm_num, by norm_num⟩)).1 (by norm_num)⟩

/-- The calls the loop makes on the display and clock, in order: one
`matrix.SetImage(img)` and one `time.sleep(frame_delay)` per iteration, and
`matrix.Clear()` once after the loop. -/
inductive DCall where
  | setImage : DCall
  | sleep : DCall
  | clear : DCall
deriving DecidableEq

/-- The `while running:` loop: at the top of each iteration the flag is read
at the current tick `i`; while it is `true` the body runs in full (push the
frame, then sleep) and the loop repeats at the next tick; the `fuel` bound
only makes the recursion structural and is irrelevant once it exceeds the
tick at which the flag turns false. -/
def runLoop (flag : ℕ → Bool) : ℕ → ℕ → List DCall
  | _, 0 => []
  | i, fuel + 1 =>
    if flag i then DCall.setImage :: DCall.sleep :: runLoop flag (i + 1) fuel
    else []

/-- The whole run: the loop followed by the single `matrix.Clear()` call. -/
def runTrace (flag : ℕ → Bool) (fuel : ℕ) : List DCall :=
  runLoop flag 0 fuel ++ [DCall.clear]

/-- No `Clear` call ever happens inside the loop. -/
theorem runLoop_count_clear (flag : ℕ → Bool) (i fuel : ℕ) :
    (runLoop flag i fuel).count DCall.clear = 0 := by
  induction fuel generalizing i with
  | zero => rfl
  | succ n ih =>
    rw [runLoop]
    by_cases h : flag i
    · rw [if_pos h]
      rw [List.count_cons_of_ne (by decide), List.count_cons_of_ne (by decide)]
      exact ih (i + 1)
    · rw [if_neg h]; rfl

/-- The loop pushes one frame per iteration until the flag is observed false:
with the flag set (to "stop") from tick `N` on, exactly `N - i` frames are
pushed from tick `i`. -/
theorem runLoop_count_setImage (flag : ℕ → Bool) (N : ℕ)
    (hflag : ∀ j, flag j = decide (j < N)) (fuel i : ℕ) (hfuel : N ≤ i + fuel) :
    (runLoop flag i fuel).count DCall.setImage = N - i := by
  induction fuel generalizing i with
  | zero =>
    have : N - i = 0 := by omega
    rw [runLoop, this]
    rfl
  | succ n ih =>
    rw [runLoop, hflag i]
    by_cases h : i < N
    · rw [if_pos (by simpa using h)]
      rw [List.count_cons_self, List.count_cons_of_ne (by decide)]
      rw [ih (i + 1) (by omega)]
      omega
    · rw [if_neg (by simpa using h)]
      have : N - i = 0 := by omega
      rw [this]; rfl

/-- C7: once the cancellation flag is set (true exactly before tick `N`, then
false forever — the set-once token), the loop performs its final full
iteration and exits: no `Clear` occurs during the loop, the run makes exactly
one `Clear` call, that `Clear` is the very last display call (so no
`SetImage` follows it), and exactly `N` frames are pushed — one per completed
iteration. -/
theorem c7_cancellation_clear_once (flag : ℕ → Bool) (fuel N : ℕ)
    (hflag : ∀ j, flag j = decide (j < N)) (hfuel : N ≤ fuel) :
    (runLoop flag 0 fuel).count DCall.clear = 0 ∧
      (runTrace flag fuel).count DCall.clear = 1 ∧
      (runTrace flag fuel).getLast? = some DCall.clear ∧
      (runTrace flag fuel).count DCall.setImage = N := by
  refine ⟨runLoop_count_clear flag 0 fuel, ?_, ?_, ?_⟩
  · rw [runTrace, List.count_append, runLoop_count_clear]
    rfl
  · rw [runTrace]
    exact List.getLast?_append_of_ne_nil _ (by simp)
  · rw [runTrace, List.count_append,
      runLoop_count_setImage flag N hflag fuel 0 (by omega)]
    rfl

/-- C7 witness: a run cancelled at tick 2 with fuel 3. -/
theorem c7_cancellation_clear_once_witness :
    (runLoop (fun i => decide (i < 2)) 0 3).count DCall.clear = 0 ∧
      (runTrace (fun i => decide (i < 2)) 3).count DCall.clear = 1 ∧
      (runTrace (fun i => decide (i < 2)) 3).getLast? = some DCall.clear ∧
      (runTrace (fun i => decide (i < 2)) 3).count DCall.setImage = 2 :=
  c7_cancellation_clear_once (fun i => decide (i < 2)) 3 2 (fun _ => rfl)
    (by decide)

/-- The eight offsets are pairwise distinct. -/
theorem offsets_nodup : offsets.Nodup := by decide

/-- Every offset component lies in `{-1, 0, 1}`. -/
theorem offsets_mem_bounds :
    ∀ p ∈ offsets, -1 ≤ p.1 ∧ p.1 ≤ 1 ∧ -1 ≤ p.2 ∧ p.2 ≤ 1 := by decide

/-- On an axis of length at least 3, distinct shifts from `{-1, 0, 1}` land on
distinct wrapped indices. -/
theorem wrapIdx_inj {n : ℕ} (hn : 3 ≤ n) (i : Fin n) {d d' : ℤ}
    (hd : -1 ≤ d ∧ d ≤ 1) (hd' : -1 ≤ d' ∧ d' ≤ 1)
    (h : wrapIdx i d = wrapIdx i d') : d = d' := by
  have hv : (((i : ℤ) + d) % (n : ℤ)).toNat = (((i : ℤ) + d') % (n : ℤ)).toNat :=
    congrArg Fin.val h
  have hnz : (n : ℤ) ≠ 0 := by
    have : (0 : ℤ) < (n : ℤ) := by exact_mod_cast lt_of_lt_of_le (by norm_num) hn
    omega
  have h1 : 0 ≤ ((i : ℤ) + d) % (n : ℤ) := Int.emod_nonneg _ hnz
  have h2 : 0 ≤ ((i : ℤ) + d') % (n : ℤ) := Int.emod_nonneg _ hnz
  have heq : ((i : ℤ) + d) % (n : ℤ) = ((i : ℤ) + d') % (n : ℤ) := by omega
  have hdvd : (n : ℤ) ∣ (d - d') := by
    have h3 := Int.emod_eq_emod_iff_emod_sub_eq_zero.mp heq
    have h4 : ((i : ℤ) + d) - ((i : ℤ) + d') = d - d' := by ring
    rw [h4] at h3
    exact Int.dvd_of_emod_eq_zero h3
  have habs : |d - d'| < (n : ℤ) := by
    have : (3 : ℤ) ≤ (n : ℤ) := by exact_mod_cast hn
    rw [abs_lt]
    omega
  have := Int.eq_zero_of_abs_lt_dvd hdvd habs
  omega

/-- For a grid with both axes of length at least 3 the eight wrapped adjacent
positions of a cell are pairwise distinct. -/
theorem adjList_nodup {H W : ℕ} (hH : 3 ≤ H) (hW : 3 ≤ W)
    (r : Fin H) (c : Fin W) : (adjList r c).Nodup := by
  refine List.Nodup.map_on ?_ offsets_nodup
  intro x hx y hy hxy
  obtain ⟨hx1, hx2, hx3, hx4⟩ := offsets_mem_bounds x hx
  obtain ⟨hy1, hy2, hy3, hy4⟩ := offsets_mem_bounds y hy
  have h1 : wrapIdx r x.1 = wrapIdx r y.1 := congrArg Prod.fst hxy
  have h2 : wrapIdx c x.2 = wrapIdx c y.2 := congrArg Prod.snd hxy
  have e1 := wrapIdx_inj hH r ⟨hx1, hx2⟩ ⟨hy1, hy2⟩ h1
  have e2 := wrapIdx_inj hW c ⟨hx3, hx4⟩ ⟨hy3, hy4⟩ h2
  exact Prod.ext e1 e2

/-- Summing the indicator of a boolean predicate over a list counts the
elements the predicate keeps. -/
theorem sum_toNat_eq_length_filter {α : Type} (l : List α) (p : α → Bool) :
    (l.map fun x => (p x).toNat).sum = (l.filter p).length := by
  induction l with
  | nil => rfl
  | cons a l ih =>
    cases h : p a <;> simp [List.filter_cons, h] <;> omega

/-- C10: for every grid with both dimensions at least 3, the rolled-sum
neighbor count at each cell equals the number of live cells among the eight
distinct toroidally-adjacent cells; on smaller grids the rolled sum counts
positions with multiplicity and the two counts differ — on the all-alive 2×2
grid the rolled sum is 8 while only 3 distinct adjacent cells are alive. -/
theorem c10_rolled_sum_refines_distinct_count :
    (∀ (H W : ℕ) (g : Grid H W) (r : Fin H) (c : Fin W),
        3 ≤ H → 3 ≤ W → neighbors g r c = trueNeighbors g r c) ∧
      neighbors allAlive2 0 0 = 8 ∧ trueNeighbors allAlive2 0 0 = 3 := by
  refine ⟨?_, by decide, by decide⟩
  intro H W g r c hH hW
  rw [neighbors_eq_specNeighbors]
  have hnd := adjList_nodup hH hW r c
  rw [specNeighbors, sum_toNat_eq_length_filter]
  rw [trueNeighbors, adjCells, ← List.toFinset_filter]
  rw [List.toFinset_card_of_nodup (hnd.filter _)]

/-- C10 witness: the refinement instantiated on a 3×3 grid. -/
theorem c10_rolled_sum_refines_distinct_count_witness :
    neighbors singleCell3 0 0 = trueNeighbors singleCell3 0 0 :=
  c10_rolled_sum_refines_distinct_count.1 3 3 singleCell3 0 0
    (by decide) (by decide)
